import Mathlib

/-
Verification development for the mecha actor library (src/src/lib.rs).

The Rust code is shallowly embedded: each relevant Rust item becomes a Lean
definition with the same name where possible.  An ActorAddress is modelled by
its unique identity (the uuid becomes a Nat); the send endpoint of an address
is modelled by routing emitted messages to the address itself, so an output of
a handler is a pair (target address, message).  HashMap state is modelled by
association lists with replace-on-insert semantics; lookup order is the only
observable behaviour the claims depend on.  A Rust panic (a failing unwrap)
is modelled by an Option-valued handler returning none.  The f64 payload of a
datum is represented by its 64-bit pattern as a Nat, since no claim computes
with float values, only with the variant structure.
-/

set_option autoImplicit false

namespace Mecha

/-- ActorAddress from src/src/lib.rs: the uuid identity. The mpsc endpoint is
modelled by routing: a send targeted at this address is recorded as a pair of
the address and the message. Two addresses with equal identity refer to the
same actor, so the identity determines the address in the model. -/
structure ActorAddress where
  id : Nat
deriving DecidableEq, Repr

/-- MessageType from src/src/lib.rs. -/
inductive MessageType where
  | Init
  | Exited
  | Register
  | RegisterResponse
  | WhereIs
  | WhereIsResponse
  | Link
  | Shutdown
  | Custom (tag : String)
deriving DecidableEq, Repr

/-- MessageDatum from src/src/lib.rs. The Map variant is an association list
keyed by strings; F64 carries the 64-bit pattern of the float payload. -/
inductive MessageDatum where
  | Void
  | I64 (x : Int)
  | U64 (x : Nat)
  | F64 (bits : Nat)
  | Str (s : String)
  | Map (m : List (String × MessageDatum))
  | Act (a : ActorAddress)

namespace MessageDatum

/-- MessageDatum::as_i64. -/
def as_i64 : MessageDatum → Option Int
  | .I64 x => some x
  | _ => none

/-- MessageDatum::as_u64. -/
def as_u64 : MessageDatum → Option Nat
  | .U64 x => some x
  | _ => none

/-- MessageDatum::as_f64 (payload represented by its bit pattern). -/
def as_f64 : MessageDatum → Option Nat
  | .F64 x => some x
  | _ => none

/-- MessageDatum::as_str. -/
def as_str : MessageDatum → Option String
  | .Str s => some s
  | _ => none

/-- MessageDatum::as_map. -/
def as_map : MessageDatum → Option (List (String × MessageDatum))
  | .Map m => some m
  | _ => none

/-- MessageDatum::as_act. -/
def as_act : MessageDatum → Option ActorAddress
  | .Act a => some a
  | _ => none

end MessageDatum

/-- Message from src/src/lib.rs: a type, a sender and a datum. -/
structure Message where
  mt : MessageType
  sender : ActorAddress
  datum : MessageDatum

/-- MessageBuilder from src/src/lib.rs. -/
structure MessageBuilder where
  mt : MessageType
  sender : Option ActorAddress
  datum : Option MessageDatum

/-- Message::init builder constructor. -/
def Message.init : MessageBuilder := ⟨.Init, none, none⟩

/-- Message::exited builder constructor. -/
def Message.exited : MessageBuilder := ⟨.Exited, none, none⟩

/-- Message::register builder constructor. -/
def Message.register : MessageBuilder := ⟨.Register, none, none⟩

/-- Message::register_response builder constructor. -/
def Message.register_response : MessageBuilder := ⟨.RegisterResponse, none, none⟩

/-- Message::where_is builder constructor. -/
def Message.where_is : MessageBuilder := ⟨.WhereIs, none, none⟩

/-- Message::where_is_response builder constructor. -/
def Message.where_is_response : MessageBuilder := ⟨.WhereIsResponse, none, none⟩

/-- Message::link builder constructor. -/
def Message.link : MessageBuilder := ⟨.Link, none, none⟩

/-- Message::shutdown builder constructor. -/
def Message.shutdown : MessageBuilder := ⟨.Shutdown, none, none⟩

/-- Message::custom builder constructor. -/
def Message.custom (tag : String) : MessageBuilder := ⟨.Custom tag, none, none⟩

namespace MessageBuilder

/-- MessageBuilder::with_sender. -/
def with_sender (b : MessageBuilder) (f : ActorAddress) : MessageBuilder :=
  { b with sender := some f }

/-- MessageBuilder::with_datum. -/
def with_datum (b : MessageBuilder) (d : MessageDatum) : MessageBuilder :=
  { b with datum := some d }

/-- MessageBuilder::with_str. -/
def with_str (b : MessageBuilder) (s : String) : MessageBuilder :=
  b.with_datum (.Str s)

/-- MessageBuilder::with_map. -/
def with_map (b : MessageBuilder) (m : List (String × MessageDatum)) : MessageBuilder :=
  b.with_datum (.Map m)

/-- MessageBuilder::with_act. -/
def with_act (b : MessageBuilder) (a : ActorAddress) : MessageBuilder :=
  b.with_datum (.Act a)

/-- MessageBuilder::build. The Rust code substitutes a freshly allocated
null-route address when no sender was set; the fresh address is passed as an
argument here. A missing datum becomes Void. -/
def build (b : MessageBuilder) (fresh : ActorAddress) : Message :=
  ⟨b.mt, b.sender.getD fresh, b.datum.getD .Void⟩

end MessageBuilder

/-- A mailbox: the receiving half of the mpsc channel of one actor. isOpen is
false once the receiving actor has terminated and dropped the receiver. -/
structure Mailbox where
  isOpen : Bool
  queue : List Message

/-- The mpsc send operation: enqueue when the receiver is alive, otherwise
report an error to the caller (the Rust SendError, carried here as Unit). -/
def mpscSend (mb : Mailbox) (m : Message) : Mailbox × Except Unit Unit :=
  if mb.isOpen then ({ mb with queue := mb.queue ++ [m] }, .ok ()) else (mb, .error ())

/-- MessageBuilder::send_to. The Rust code is
`to.endpoint.send(self.build()).unwrap_or(())`: the send error is discarded,
so the function is total and returns only the (possibly unchanged) mailbox. -/
def MessageBuilder.send_to (b : MessageBuilder) (fresh : ActorAddress) (mb : Mailbox) : Mailbox :=
  (mpscSend mb (b.build fresh)).1

/-- The messages that spawn_internal enqueues on the new mailbox before the
actor task is started and before the address is returned: an Init built with
no sender (so the builder substitutes the fresh null-route address), then,
when an uplink is given, a Link whose sender is the uplink. -/
def spawnEnqueued (fresh : ActorAddress) (uplink : Option ActorAddress) : List Message :=
  Message.init.build fresh ::
    (match uplink with
     | none => []
     | some a => [(Message.link.with_sender a).build fresh])

/-- The mailbox contents seen by the new actor once third parties, who can
obtain the address only after spawn_internal returns it, have appended their
messages: the mpsc channel is FIFO, so the spawn-time messages come first. -/
def mailboxAfterSpawn (fresh : ActorAddress) (uplink : Option ActorAddress)
    (external : List Message) : List Message :=
  spawnEnqueued fresh uplink ++ external

/-- ActorInternal from src/src/lib.rs, restricted to what the message loop
mutates: the self address and the uplinks list. The mailbox receiver is left
implicit (messages are fed to the step function). -/
structure ActorInternal where
  address : ActorAddress
  uplinks : List ActorAddress

/-- The standard actions the spawn_internal loop performs after the user
handler has processed a message, as a function of the message type and sender:
Link appends the sender to the uplinks; Shutdown emits an Exited with sender
self and Void datum to every uplink and terminates the loop (the Bool result);
every other type does nothing. -/
def systemPostAction (internal : ActorInternal) (mt : MessageType) (ms : ActorAddress) :
    ActorInternal × List (ActorAddress × Message) × Bool :=
  match mt with
  | .Link => ({ internal with uplinks := internal.uplinks ++ [ms] }, [], false)
  | .Shutdown =>
      (internal,
       internal.uplinks.map (fun a =>
         (a, ((Message.exited.with_sender internal.address).build internal.address))),
       true)
  | _ => (internal, [], false)

section AList

variable {α : Type} {β : Type} [DecidableEq α]

/-- Association list lookup, modelling HashMap::get / contains_key. -/
def alistGet : List (α × β) → α → Option β
  | [], _ => none
  | (k, v) :: t, k2 => if k2 = k then some v else alistGet t k2

/-- Association list removal, modelling HashMap::remove (result value unused
by the embedded code, so only the remaining map is returned). -/
def alistRemove (l : List (α × β)) (k : α) : List (α × β) :=
  l.filter (fun p => decide (p.1 ≠ k))

/-- Association list insertion with replacement, modelling HashMap::insert. -/
def alistInsert (l : List (α × β)) (k : α) (v : β) : List (α × β) :=
  (k, v) :: alistRemove l k

theorem alistGet_remove (l : List (α × β)) (k k2 : α) :
    alistGet (alistRemove l k) k2 = if k2 = k then none else alistGet l k2 := by
  induction l with
  | nil => simp [alistRemove, alistGet]
  | cons p t ih =>
    obtain ⟨a, b⟩ := p
    by_cases hak : a = k
    · subst hak
      by_cases h2 : k2 = a
      · subst h2
        simpa [alistRemove, alistGet] using ih
      · simpa [alistRemove, alistGet, h2] using ih
    · by_cases h2 : k2 = a
      · subst h2
        simp [alistRemove, alistGet, hak]
      · simpa [alistRemove, alistGet, hak, h2] using ih

theorem alistGet_insert (l : List (α × β)) (k : α) (v : β) (k2 : α) :
    alistGet (alistInsert l k v) k2 = if k2 = k then some v else alistGet l k2 := by
  by_cases h : k2 = k
  · simp [alistInsert, alistGet, h]
  · simp [alistInsert, alistGet, h, alistGet_remove]

end AList

/-- MasterControlProgramImpl from src/src/lib.rs: the registry state, a map
from names to addresses and a map from identities to names. -/
structure MasterControlProgramImpl where
  registered : List (String × ActorAddress)
  lookup : List (Nat × String)

/-- The key "name" used in Register data. -/
def MCP_REGISTER_NAME_KEY : String := "name"

/-- The key "actor" used in Register data. -/
def MCP_REGISTER_ACTOR_KEY : String := "actor"

/-- A default address supplied to MessageBuilder.build at call sites where the
Rust builder would allocate a throwaway null-route sender; every builder built
by the registry has its sender set, so the value is never read there. -/
def nullRoute : ActorAddress := ⟨0⟩

/-- MasterControlProgramImpl::process_message. Outputs are the messages sent,
in program order, paired with their targets. A result of none models a panic
of the handler (the failing unwrap calls in the Register branch when a Map
datum lacks the "name" or "actor" key or binds it to a value of the wrong
variant). The match on alistGet combines the contains_key test with the
get().unwrap() that the Rust code performs under that test. -/
def MasterControlProgramImpl.process_message (s : MasterControlProgramImpl)
    (message : Message) (myself : ActorAddress) :
    Option (MasterControlProgramImpl × List (ActorAddress × Message)) :=
  match message.mt with
  | .Exited =>
    match alistGet s.lookup message.sender.id with
    | none => some (s, [])
    | some key =>
        some ({ registered := alistRemove s.registered key,
                lookup := alistRemove s.lookup message.sender.id }, [])
  | .Register =>
    match message.datum.as_map with
    | none =>
        some (s, [(message.sender,
                   (Message.register_response.with_sender myself).build nullRoute)])
    | some m =>
      match alistGet m MCP_REGISTER_NAME_KEY with
      | none => none
      | some nd =>
        match nd.as_str with
        | none => none
        | some name =>
          match alistGet m MCP_REGISTER_ACTOR_KEY with
          | none => none
          | some ad =>
            match ad.as_act with
            | none => none
            | some actor =>
              if (alistGet s.registered name).isSome then
                some (s, [(message.sender,
                           (Message.register_response.with_sender myself).build nullRoute)])
              else
                some ({ registered := alistInsert s.registered name actor,
                        lookup := alistInsert s.lookup actor.id name },
                      [(actor, (Message.link.with_sender myself).build nullRoute),
                       (message.sender,
                        ((Message.register_response.with_sender myself).with_str name).build
                          nullRoute)])
  | .WhereIs =>
    match message.datum.as_str with
    | none =>
        some (s, [(message.sender,
                   (Message.where_is_response.with_sender myself).build nullRoute)])
    | some n =>
      match alistGet s.registered n with
      | none =>
          some (s, [(message.sender,
                     (Message.where_is_response.with_sender myself).build nullRoute)])
      | some a =>
          some (s, [(message.sender,
                     ((Message.where_is_response.with_sender myself).with_act a).build
                       nullRoute)])
  | .Shutdown =>
      some (s, s.registered.map (fun p =>
        (p.2, (Message.shutdown.with_sender myself).build nullRoute)))
  | _ => some (s, [])

/-- The well-formedness test the spec imposes on a Register mapping datum: a
key "name" bound to a Str and a key "actor" bound to an Act. -/
def registerMapWellFormed (m : List (String × MessageDatum)) : Bool :=
  (match alistGet m MCP_REGISTER_NAME_KEY with
   | some (.Str _) => true
   | _ => false) &&
  (match alistGet m MCP_REGISTER_ACTOR_KEY with
   | some (.Act _) => true
   | _ => false)

/-- MasterControlProgram::register, the synchronous wrapper: build the data
map, send a Register with sender set to the freshly allocated reply address
temp, let the registry actor process it, then receive the first message the
registry directed at temp and interpret it. A none result models either a
registry panic or the recv().unwrap() failing because no reply was sent. The
returned outputs are all messages the registry emitted while processing. -/
def MasterControlProgram.register (s : MasterControlProgramImpl)
    (mcpAddr temp : ActorAddress) (name : String) (actor : ActorAddress) :
    Option (MasterControlProgramImpl × List (ActorAddress × Message) × Bool) :=
  let data : List (String × MessageDatum) :=
    [(MCP_REGISTER_NAME_KEY, .Str name), (MCP_REGISTER_ACTOR_KEY, .Act actor)]
  let msg := (((Message.register.with_sender temp).with_map data)).build nullRoute
  match s.process_message msg mcpAddr with
  | none => none
  | some (s2, outs) =>
    match outs.find? (fun o => decide (o.1 = temp)) with
    | none => none
    | some om =>
        some (s2, outs,
          match om.2.mt with
          | .RegisterResponse =>
            match om.2.datum with
            | .Str _ => true
            | _ => false
          | _ => false)

/-- MasterControlProgram::where_is, the synchronous wrapper: send a WhereIs
with a Str datum from the fresh reply address temp, let the registry process
it, receive the first message directed at temp and interpret it. -/
def MasterControlProgram.where_is (s : MasterControlProgramImpl)
    (mcpAddr temp : ActorAddress) (name : String) :
    Option (MasterControlProgramImpl × Option ActorAddress) :=
  let msg := ((Message.where_is.with_sender temp).with_str name).build nullRoute
  match s.process_message msg mcpAddr with
  | none => none
  | some (s2, outs) =>
    match outs.find? (fun o => decide (o.1 = temp)) with
    | none => none
    | some om =>
        some (s2,
          match om.2.mt with
          | .WhereIsResponse =>
            match om.2.datum with
            | .Act a => some a
            | _ => none
          | _ => none)

/-- The registry invariant of the spec: the two maps are mutual inverses. -/
def inverses (s : MasterControlProgramImpl) : Prop :=
  ∀ (n : String) (a : ActorAddress),
    alistGet s.registered n = some a ↔ alistGet s.lookup a.id = some n

/-- Modelled from the spec: the declarative (matcher/action) actor form of
section 4.4 is not present under src/, so its state is modelled from the
words of the spec: initial state, an ordered sequence of matcher functions,
one ordered action list per matcher, the pending queue, and the uplinks. An
action returns Ok with the new state or Err with a reason string. -/
structure DeclarativeActor (σ : Type) where
  state : σ
  matchers : List (Message → σ → Bool)
  actions : List (List (Message → σ → Except String σ))
  pending : List Message
  uplinks : List ActorAddress

variable {σ2 : Type}

/-- Modelled from the spec: run the actions of a matched rule in declared
order; the first action returning Err short-circuits with its reason. -/
def runActions (msg : Message) : σ2 → List (Message → σ2 → Except String σ2) →
    Except String σ2
  | st, [] => .ok st
  | st, a :: rest =>
    match a msg st with
    | .ok st2 => runActions msg st2 rest
    | .error r => .error r

/-- Modelled from the spec: the index of the first matcher (in declared
order) that matches the message against the current state. -/
def firstMatcher (msg : Message) (st : σ2) :
    List (Message → σ2 → Bool) → Option Nat
  | [] => none
  | m :: rest =>
    if m msg st then some 0 else (firstMatcher msg st rest).map (· + 1)

/-- Modelled from the spec: walk the pending queue from the front and return
the earliest queued message matched by some matcher, together with the index
of its first matching matcher and the queue with that message removed. -/
def selectMatched (ms : List (Message → σ2 → Bool)) (st : σ2) :
    List Message → Option (Message × Nat × List Message)
  | [] => none
  | msg :: rest =>
    match firstMatcher msg st ms with
    | some j => some (msg, j, rest)
    | none => (selectMatched ms st rest).map (fun x => (x.1, x.2.1, msg :: x.2.2))

/-- Modelled from the spec: scan the pending queue for the first
system-handled message (Link or Shutdown), returning it and the rest. -/
def findSystemHandled : List Message → Option (Message × List Message)
  | [] => none
  | m :: rest =>
    if m.mt = .Link ∨ m.mt = .Shutdown then some (m, rest)
    else (findSystemHandled rest).map (fun x => (x.1, m :: x.2))

/-- Modelled from the spec: the outcome of one dispatch cycle. A running
result carries the next actor value and the emitted messages; a stopped
result carries only the emitted messages, since termination discards the
actor, its state and its pending queue; blocked means the cycle must wait on
the mailbox for a new message. -/
inductive DispatchResult (σ : Type) where
  | running (actor : DeclarativeActor σ) (outs : List (ActorAddress × Message))
  | stopped (outs : List (ActorAddress × Message))
  | blocked

/-- Modelled from the spec: one cycle of the dispatch algorithm of section
4.4. Pick the earliest matched pending message; run its actions in order; on
the first Err(reason) emit Exited with datum Str(reason) to every uplink and
terminate without touching the rest of the queue; on success remove the
message and apply the system post-action for its kind. When no message
matches, handle the first pending Link or Shutdown through the system
post-action; otherwise block on the mailbox. -/
def dispatchStep (ac : DeclarativeActor σ2) (self : ActorAddress) : DispatchResult σ2 :=
  match selectMatched ac.matchers ac.state ac.pending with
  | some (msg, j, rest) =>
    match runActions msg ac.state (ac.actions.getD j []) with
    | .error reason =>
        .stopped (ac.uplinks.map (fun u => (u, ⟨.Exited, self, .Str reason⟩)))
    | .ok st2 =>
      match msg.mt with
      | .Link =>
          .running { ac with state := st2, pending := rest,
                             uplinks := ac.uplinks ++ [msg.sender] } []
      | .Shutdown =>
          .stopped (ac.uplinks.map (fun u => (u, ⟨.Exited, self, .Void⟩)))
      | _ => .running { ac with state := st2, pending := rest } []
  | none =>
    match findSystemHandled ac.pending with
    | some (msg, rest) =>
      match msg.mt with
      | .Shutdown =>
          .stopped (ac.uplinks.map (fun u => (u, ⟨.Exited, self, .Void⟩)))
      | _ =>
          .running { ac with pending := rest,
                             uplinks := ac.uplinks ++ [msg.sender] } []
    | none => .blocked

/-- Claim C9: each datum conversion helper returns some exactly on its own
variant and none on every other variant. -/
theorem datum_conversion_helpers :
    (∀ (d : MessageDatum) (x : Int), d.as_i64 = some x ↔ d = .I64 x) ∧
    (∀ (d : MessageDatum) (x : Nat), d.as_u64 = some x ↔ d = .U64 x) ∧
    (∀ (d : MessageDatum) (x : Nat), d.as_f64 = some x ↔ d = .F64 x) ∧
    (∀ (d : MessageDatum) (s : String), d.as_str = some s ↔ d = .Str s) ∧
    (∀ (d : MessageDatum) (m : List (String × MessageDatum)),
       d.as_map = some m ↔ d = .Map m) ∧
    (∀ (d : MessageDatum) (a : ActorAddress), d.as_act = some a ↔ d = .Act a) := by
  refine ⟨?_, ?_, ?_, ?_, ?_, ?_⟩ <;> intro d x <;> cases d <;>
    simp [MessageDatum.as_i64, MessageDatum.as_u64, MessageDatum.as_f64,
          MessageDatum.as_str, MessageDatum.as_map, MessageDatum.as_act]

/-- Claim C6: for every builder and target, send_to is a total function into
the new mailbox state, so nothing is raised to the sender; on a closed
mailbox the message is silently dropped and the mailbox is unchanged, on an
open mailbox the only effect is the enqueue. -/
theorem send_to_never_raises (b : MessageBuilder) (fresh : ActorAddress) (mb : Mailbox) :
    (mb.isOpen = false → b.send_to fresh mb = mb) ∧
    (mb.isOpen = true →
       b.send_to fresh mb = { mb with queue := mb.queue ++ [b.build fresh] }) := by
  constructor <;> intro h <;> simp [MessageBuilder.send_to, mpscSend, h]

/-- Claim C6 witness: a concrete send to a closed mailbox is a no-op. -/
theorem send_to_never_raises_witness :
    (Message.custom "t").send_to ⟨3⟩ ⟨false, []⟩ = ⟨false, []⟩ :=
  (send_to_never_raises (Message.custom "t") ⟨3⟩ ⟨false, []⟩).1 rfl

/-- Claim C5: the Init message, with Void datum and the null-route sender, is
the first message in the mailbox of any spawned actor; for spawn_link the
Link whose sender is the uplink is the second; and every message appended by
a third party, who obtains the address only after the spawn-time enqueues,
sits at position two or later, hence after the Link. -/
theorem spawn_init_link_first (fresh u : ActorAddress) (external : List Message) :
    (∀ uplink, (mailboxAfterSpawn fresh uplink external).head? =
       some ⟨.Init, fresh, .Void⟩) ∧
    ((mailboxAfterSpawn fresh (some u) external)[1]? = some ⟨.Link, u, .Void⟩) ∧
    (∀ (i : Nat) (m : Message), external[i]? = some m →
       (mailboxAfterSpawn fresh (some u) external)[i + 2]? = some m) := by
  refine ⟨?_, ?_, ?_⟩
  · intro uplink
    cases uplink <;>
      simp [mailboxAfterSpawn, spawnEnqueued, MessageBuilder.build, Message.init]
  · simp [mailboxAfterSpawn, spawnEnqueued, MessageBuilder.build, Message.link,
          MessageBuilder.with_sender]
  · intro i m h
    simp [mailboxAfterSpawn, spawnEnqueued, h]

/-- Claim C5 witness: with one concrete external message, it sits at position
two, after Init and the Link. -/
theorem spawn_init_link_first_witness :
    (mailboxAfterSpawn ⟨3⟩ (some ⟨4⟩) [⟨.Custom "t", ⟨5⟩, .Void⟩])[0 + 2]? =
      some ⟨.Custom "t", ⟨5⟩, .Void⟩ :=
  (spawn_init_link_first ⟨3⟩ ⟨4⟩ [⟨.Custom "t", ⟨5⟩, .Void⟩]).2.2 0
    ⟨.Custom "t", ⟨5⟩, .Void⟩ rfl

theorem filter_map_const_count (l : List ActorAddress) (a : ActorAddress) (m : Message) :
    ((l.map (fun x => (x, m))).filter (fun o => decide (o.1 = a))).length = l.count a := by
  induction l with
  | nil => simp
  | cons b t ih =>
    by_cases hba : b = a
    · subst hba
      simp [List.count_cons, ih]
    · simp [List.count_cons, hba, ih]

/-- Claim C4: processing Shutdown emits, to each entry of the uplinks list in
turn, one Exited whose sender is the own address and whose datum is Void, and
terminates the loop; for every address the number of Exited messages sent to
it equals its number of occurrences among the uplinks; and an accepted Link
appends its sender to the uplinks without deduplication and does not
terminate, so a duplicated uplink receives two Exited messages. -/
theorem shutdown_exited_per_uplink (st : ActorInternal) (ms u : ActorAddress) :
    (systemPostAction st .Shutdown ms =
      (st, st.uplinks.map (fun a => (a, ⟨.Exited, st.address, .Void⟩)), true)) ∧
    (∀ a : ActorAddress,
      ((systemPostAction st .Shutdown ms).2.1.filter
          (fun o => decide (o.1 = a))).length = st.uplinks.count a) ∧
    ((systemPostAction st .Link u).1.uplinks = st.uplinks ++ [u]) ∧
    ((systemPostAction st .Link u).2.2 = false) := by
  refine ⟨?_, ?_, ?_, ?_⟩
  · simp [systemPostAction, MessageBuilder.build, Message.exited,
          MessageBuilder.with_sender]
  · intro a
    simp only [systemPostAction, MessageBuilder.build, Message.exited,
               MessageBuilder.with_sender]
    exact filter_map_const_count st.uplinks a _
  · simp [systemPostAction]
  · simp [systemPostAction]

/-- Claim C10: when the registry processes an Exited whose sender identity is
absent from the lookup map, both maps are completely unchanged, nothing is
sent and the handler returns normally; the pair of entries is removed exactly
when the identity is present. -/
theorem exited_unknown_frame (s : MasterControlProgramImpl) (msg : Message)
    (myself : ActorAddress) (hmt : msg.mt = .Exited) :
    (alistGet s.lookup msg.sender.id = none →
       s.process_message msg myself = some (s, [])) ∧
    (∀ key, alistGet s.lookup msg.sender.id = some key →
       s.process_message msg myself =
         some ({ registered := alistRemove s.registered key,
                 lookup := alistRemove s.lookup msg.sender.id }, [])) := by
  constructor
  · intro h
    simp [MasterControlProgramImpl.process_message, hmt, h]
  · intro key h
    simp [MasterControlProgramImpl.process_message, hmt, h]

/-- Claim C10 witness: a concrete Exited from an unregistered identity leaves
a concrete one-entry registry unchanged. -/
theorem exited_unknown_frame_witness :
    MasterControlProgramImpl.process_message ⟨[("a", ⟨1⟩)], [(1, "a")]⟩
        ⟨.Exited, ⟨2⟩, .Void⟩ ⟨7⟩ =
      some (⟨[("a", ⟨1⟩)], [(1, "a")]⟩, []) :=
  (exited_unknown_frame ⟨[("a", ⟨1⟩)], [(1, "a")]⟩ ⟨.Exited, ⟨2⟩, .Void⟩ ⟨7⟩ rfl).1 rfl

/-- Claim C1 (amended): when the datum of a Register message is not a Map at
all, the registry replies to the sender with RegisterResponse and Void datum
and leaves its state unchanged; but when the datum is a Map that is not
well-formed (lacking the key "name" bound to a Str or the key "actor" bound
to an Act), the handler panics (modelled by the none result) instead of
replying. -/
theorem register_malformed_datum (s : MasterControlProgramImpl) (msg : Message)
    (myself : ActorAddress) (hmt : msg.mt = .Register) :
    (msg.datum.as_map = none →
       s.process_message msg myself =
         some (s, [(msg.sender, ⟨.RegisterResponse, myself, .Void⟩)])) ∧
    (∀ m, msg.datum = .Map m → registerMapWellFormed m = false →
       s.process_message msg myself = none) := by
  constructor
  · intro h
    simp [MasterControlProgramImpl.process_message, hmt, h, Message.register_response,
          MessageBuilder.with_sender, MessageBuilder.build]
  · intro m hd hwf
    simp only [MasterControlProgramImpl.process_message, hmt, hd, MessageDatum.as_map]
    cases hname : alistGet m MCP_REGISTER_NAME_KEY with
    | none => simp
    | some nd =>
      cases nd with
      | Str nm =>
        simp only [hname, MessageDatum.as_str]
        cases hact : alistGet m MCP_REGISTER_ACTOR_KEY with
        | none => simp
        | some ad =>
          cases ad with
          | Act a =>
            exfalso
            rw [registerMapWellFormed, hname, hact] at hwf
            simp at hwf
          | Void => simp [hact, MessageDatum.as_act]
          | I64 x => simp [hact, MessageDatum.as_act]
          | U64 x => simp [hact, MessageDatum.as_act]
          | F64 x => simp [hact, MessageDatum.as_act]
          | Str s2 => simp [hact, MessageDatum.as_act]
          | Map m3 => simp [hact, MessageDatum.as_act]
      | Void => simp [hname, MessageDatum.as_str]
      | I64 x => simp [hname, MessageDatum.as_str]
      | U64 x => simp [hname, MessageDatum.as_str]
      | F64 x => simp [hname, MessageDatum.as_str]
      | Map m2 => simp [hname, MessageDatum.as_str]
      | Act a => simp [hname, MessageDatum.as_str]

/-- Claim C1 counterexample: a Register whose datum is a Map lacking both
required keys is not a well-formed mapping, yet the registry does not reply
with RegisterResponse Void: the handler panics (result none), refuting the
claim that it never fails or aborts on such input. -/
theorem register_malformed_map_aborts :
    registerMapWellFormed [] = false ∧
    MasterControlProgramImpl.process_message ⟨[], []⟩
      ⟨.Register, ⟨9⟩, .Map []⟩ ⟨7⟩ = none :=
  ⟨rfl, rfl⟩

/-- Claim C1 witness: a concrete Register with an I64 datum gets the Void
response with the state unchanged, and a concrete Register with an empty Map
datum makes the handler panic. -/
theorem register_malformed_datum_witness :
    MasterControlProgramImpl.process_message ⟨[], []⟩ ⟨.Register, ⟨9⟩, .I64 5⟩ ⟨7⟩ =
      some (⟨[], []⟩, [(⟨9⟩, ⟨.RegisterResponse, ⟨7⟩, .Void⟩)]) ∧
    MasterControlProgramImpl.process_message ⟨[], []⟩ ⟨.Register, ⟨9⟩, .Map []⟩ ⟨7⟩ =
      none :=
  ⟨(register_malformed_datum ⟨[], []⟩ ⟨.Register, ⟨9⟩, .I64 5⟩ ⟨7⟩ rfl).1 rfl,
   (register_malformed_datum ⟨[], []⟩ ⟨.Register, ⟨9⟩, .Map []⟩ ⟨7⟩ rfl).2 [] rfl rfl⟩

theorem ActorAddress.eq_of_id_eq {a b : ActorAddress} (h : a.id = b.id) : a = b := by
  cases a
  cases b
  simpa using h

theorem inverses_remove (s : MasterControlProgramImpl) (i : Nat) (key : String)
    (hinv : inverses s) (hk : alistGet s.lookup i = some key) :
    inverses ⟨alistRemove s.registered key, alistRemove s.lookup i⟩ := by
  have hreg : alistGet s.registered key = some ⟨i⟩ := (hinv key ⟨i⟩).2 hk
  intro n a
  simp only [alistGet_remove]
  constructor
  · intro h
    by_cases hnk : n = key
    · rw [if_pos hnk] at h
      exact absurd h (by simp)
    · rw [if_neg hnk] at h
      have hl := (hinv n a).1 h
      have hai : ¬ a.id = i := by
        intro hai
        rw [hai, hk] at hl
        exact hnk (by injection hl with h2; exact h2.symm)
      rw [if_neg hai]
      exact hl
  · intro h
    by_cases hai : a.id = i
    · rw [if_pos hai] at h
      exact absurd h (by simp)
    · rw [if_neg hai] at h
      have hr := (hinv n a).2 h
      have hnk : ¬ n = key := by
        intro hnk
        rw [hnk, hreg] at hr
        have : a = (⟨i⟩ : ActorAddress) := by injection hr with h2; exact h2.symm
        exact hai (by rw [this])
      rw [if_neg hnk]
      exact hr

theorem inverses_insert (s : MasterControlProgramImpl) (name : String) (a : ActorAddress)
    (hinv : inverses s) (hn : alistGet s.registered name = none)
    (ha : alistGet s.lookup a.id = none) :
    inverses ⟨alistInsert s.registered name a, alistInsert s.lookup a.id name⟩ := by
  intro n x
  simp only [alistGet_insert]
  by_cases hnn : n = name
  · subst hnn
    rw [if_pos rfl]
    by_cases hxa : x.id = a.id
    · have hx : x = a := ActorAddress.eq_of_id_eq hxa
      subst hx
      rw [if_pos rfl]
      simp
    · rw [if_neg hxa]
      constructor
      · intro h
        have : a = x := by injection h with h2
        exact absurd (by rw [this]) hxa
      · intro h
        have := (hinv n x).2 h
        rw [hn] at this
        exact absurd this (by simp)
  · rw [if_neg hnn]
    by_cases hxa : x.id = a.id
    · rw [if_pos hxa]
      have hx : x = a := ActorAddress.eq_of_id_eq hxa
      constructor
      · intro h
        have hl := (hinv n x).1 h
        rw [hxa, ha] at hl
        exact absurd hl (by simp)
      · intro h
        have : name = n := by injection h with h2
        exact absurd this.symm hnn
    · rw [if_neg hxa]
      exact hinv n x

theorem MessageDatum.as_str_eq {d : MessageDatum} {s : String} (h : d.as_str = some s) :
    d = .Str s := by
  cases d with
  | Str s2 =>
    simp only [MessageDatum.as_str, Option.some.injEq] at h
    rw [h]
  | Void => simp [MessageDatum.as_str] at h
  | I64 x => simp [MessageDatum.as_str] at h
  | U64 x => simp [MessageDatum.as_str] at h
  | F64 x => simp [MessageDatum.as_str] at h
  | Map m => simp [MessageDatum.as_str] at h
  | Act a => simp [MessageDatum.as_str] at h

theorem MessageDatum.as_act_eq {d : MessageDatum} {a : ActorAddress}
    (h : d.as_act = some a) : d = .Act a := by
  cases d with
  | Act a2 =>
    simp only [MessageDatum.as_act, Option.some.injEq] at h
    rw [h]
  | Void => simp [MessageDatum.as_act] at h
  | I64 x => simp [MessageDatum.as_act] at h
  | U64 x => simp [MessageDatum.as_act] at h
  | F64 x => simp [MessageDatum.as_act] at h
  | Str s2 => simp [MessageDatum.as_act] at h
  | Map m => simp [MessageDatum.as_act] at h

/-- Claim C2 (amended): processing any single registry message from a state
whose maps are mutual inverses yields again mutual inverses, provided that
any successful Register binds an address whose identity is not yet present in
the lookup map; without that proviso a Register that binds an already
registered address under a second name breaks the invariant. -/
theorem mcp_inverses_preserved (s s2 : MasterControlProgramImpl) (msg : Message)
    (myself : ActorAddress) (outs : List (ActorAddress × Message))
    (hinv : inverses s)
    (hstep : s.process_message msg myself = some (s2, outs))
    (hfresh : ∀ (m : List (String × MessageDatum)) (name : String) (a : ActorAddress),
       msg.mt = .Register → msg.datum.as_map = some m →
       alistGet m MCP_REGISTER_NAME_KEY = some (.Str name) →
       alistGet m MCP_REGISTER_ACTOR_KEY = some (.Act a) →
       alistGet s.registered name = none →
       alistGet s.lookup a.id = none) :
    inverses s2 := by
  rw [MasterControlProgramImpl.process_message] at hstep
  split at hstep
  · split at hstep
    · simp only [Option.some.injEq, Prod.mk.injEq] at hstep
      rw [← hstep.1]
      exact hinv
    · rename_i key hk
      simp only [Option.some.injEq, Prod.mk.injEq] at hstep
      rw [← hstep.1]
      exact inverses_remove s msg.sender.id key hinv hk
  · rename_i hmtR
    split at hstep
    · simp only [Option.some.injEq, Prod.mk.injEq] at hstep
      rw [← hstep.1]
      exact hinv
    · rename_i m hmap
      split at hstep
      · exact absurd hstep (by simp)
      · rename_i nd hname
        split at hstep
        · exact absurd hstep (by simp)
        · rename_i name hstr
          split at hstep
          · exact absurd hstep (by simp)
          · rename_i ad hact
            split at hstep
            · exact absurd hstep (by simp)
            · rename_i actor hactor
              split at hstep
              · simp only [Option.some.injEq, Prod.mk.injEq] at hstep
                rw [← hstep.1]
                exact hinv
              · rename_i hguard
                have hr : alistGet s.registered name = none := by
                  cases hg2 : alistGet s.registered name with
                  | none => rfl
                  | some v => rw [hg2] at hguard; simp at hguard
                simp only [Option.some.injEq, Prod.mk.injEq] at hstep
                rw [← hstep.1]
                rw [MessageDatum.as_str_eq hstr] at hname
                rw [MessageDatum.as_act_eq hactor] at hact
                exact inverses_insert s name actor hinv hr
                  (hfresh m name actor hmtR hmap hname hact hr)
  · split at hstep
    · simp only [Option.some.injEq, Prod.mk.injEq] at hstep
      rw [← hstep.1]
      exact hinv
    · rename_i n hds
      split at hstep
      · simp only [Option.some.injEq, Prod.mk.injEq] at hstep
        rw [← hstep.1]
        exact hinv
      · rename_i a2 hr2
        simp only [Option.some.injEq, Prod.mk.injEq] at hstep
        rw [← hstep.1]
        exact hinv
  · simp only [Option.some.injEq, Prod.mk.injEq] at hstep
    rw [← hstep.1]
    exact hinv
  · simp only [Option.some.injEq, Prod.mk.injEq] at hstep
    rw [← hstep.1]
    exact hinv


/-- Claim C2 counterexample: from a state whose maps are mutual inverses, a
Register that binds the already registered address under a second name yields
a state whose maps are no longer mutual inverses, refuting preservation for
every single message. -/
theorem mcp_inverses_counterexample :
    inverses ⟨[("a", ⟨1⟩)], [(1, "a")]⟩ ∧
    (MasterControlProgramImpl.process_message ⟨[("a", ⟨1⟩)], [(1, "a")]⟩
        ⟨.Register, ⟨9⟩, .Map [("name", .Str "b"), ("actor", .Act ⟨1⟩)]⟩ ⟨7⟩).map
      Prod.fst = some ⟨[("b", ⟨1⟩), ("a", ⟨1⟩)], [(1, "b")]⟩ ∧
    ¬ inverses ⟨[("b", ⟨1⟩), ("a", ⟨1⟩)], [(1, "b")]⟩ := by
  refine ⟨?_, rfl, ?_⟩
  · intro n a
    constructor
    · intro h
      by_cases hn : n = "a"
      · rw [alistGet, if_pos hn] at h
        have : a = (⟨1⟩ : ActorAddress) := by injection h with h2; exact h2.symm
        subst this
        subst hn
        rfl
      · rw [alistGet, if_neg hn, alistGet] at h
        exact absurd h (by simp)
    · intro h
      by_cases hai : a.id = 1
      · rw [alistGet, if_pos hai] at h
        have hn : n = "a" := by injection h with h2; exact h2.symm
        have hx : a = (⟨1⟩ : ActorAddress) := ActorAddress.eq_of_id_eq hai
        subst hn
        subst hx
        rfl
      · rw [alistGet, if_neg hai, alistGet] at h
        exact absurd h (by simp)
  · intro h
    have h2 := (h "a" ⟨1⟩).1 rfl
    exact absurd h2 (by decide)

/-- Claim C2 witness: preservation applied at a concrete input, a successful
Register of a fresh name and fresh address starting from the empty registry.
-/
theorem mcp_inverses_preserved_witness :
    inverses ⟨[("a", ⟨1⟩)], [(1, "a")]⟩ :=
  mcp_inverses_preserved ⟨[], []⟩ ⟨[("a", ⟨1⟩)], [(1, "a")]⟩
    ⟨.Register, ⟨9⟩, .Map [("name", .Str "a"), ("actor", .Act ⟨1⟩)]⟩ ⟨7⟩
    [(⟨1⟩, ⟨.Link, ⟨7⟩, .Void⟩), (⟨9⟩, ⟨.RegisterResponse, ⟨7⟩, .Str "a"⟩)]
    (by intro n a; constructor <;> intro h <;> exact absurd h (by simp [alistGet]))
    rfl
    (by intro m name a hmt hd hn ha hr; rfl)

theorem process_register_success (s : MasterControlProgramImpl)
    (myself sender : ActorAddress) (n : String) (a : ActorAddress)
    (hfree : alistGet s.registered n = none) :
    s.process_message ⟨.Register, sender,
        .Map [(MCP_REGISTER_NAME_KEY, .Str n), (MCP_REGISTER_ACTOR_KEY, .Act a)]⟩
      myself =
      some (⟨alistInsert s.registered n a, alistInsert s.lookup a.id n⟩,
            [(a, ⟨.Link, myself, .Void⟩),
             (sender, ⟨.RegisterResponse, myself, .Str n⟩)]) := by
  rw [MasterControlProgramImpl.process_message]
  simp [MessageDatum.as_map, MessageDatum.as_str, MessageDatum.as_act, alistGet,
        MCP_REGISTER_NAME_KEY, MCP_REGISTER_ACTOR_KEY, hfree,
        Message.link, Message.register_response, MessageBuilder.with_sender,
        MessageBuilder.with_str, MessageBuilder.with_datum, MessageBuilder.build]

theorem process_register_dup (s : MasterControlProgramImpl)
    (myself sender : ActorAddress) (n : String) (a : ActorAddress)
    (hbound : (alistGet s.registered n).isSome = true) :
    s.process_message ⟨.Register, sender,
        .Map [(MCP_REGISTER_NAME_KEY, .Str n), (MCP_REGISTER_ACTOR_KEY, .Act a)]⟩
      myself =
      some (s, [(sender, ⟨.RegisterResponse, myself, .Void⟩)]) := by
  rw [MasterControlProgramImpl.process_message]
  simp [MessageDatum.as_map, MessageDatum.as_str, MessageDatum.as_act, alistGet,
        MCP_REGISTER_NAME_KEY, MCP_REGISTER_ACTOR_KEY, hbound,
        Message.register_response, MessageBuilder.with_sender,
        MessageBuilder.with_datum, MessageBuilder.build]

/-- Claim C3: register(n, a) returns true on the first call when n is not
currently bound: the registry binds n to a, sends a Link with sender the
registry to a, and replies RegisterResponse with datum Str n; and every call
made while n is bound, whatever its state, reply address or actor argument,
returns false with the state unchanged, the only output being the Void
response to the caller, so no Link is sent and no binding is performed. The
caller side reply address temp is freshly allocated, hence distinct from a.
-/
theorem register_true_once (s : MasterControlProgramImpl) (mcpAddr temp : ActorAddress)
    (n : String) (a : ActorAddress) (hta : a ≠ temp)
    (hfree : alistGet s.registered n = none) :
    MasterControlProgram.register s mcpAddr temp n a =
      some (⟨alistInsert s.registered n a, alistInsert s.lookup a.id n⟩,
            [(a, ⟨.Link, mcpAddr, .Void⟩), (temp, ⟨.RegisterResponse, mcpAddr, .Str n⟩)],
            true) ∧
    (∀ (s2 : MasterControlProgramImpl) (temp2 a2 : ActorAddress),
       (alistGet s2.registered n).isSome = true →
       MasterControlProgram.register s2 mcpAddr temp2 n a2 =
         some (s2, [(temp2, ⟨.RegisterResponse, mcpAddr, .Void⟩)], false)) := by
  constructor
  · rw [MasterControlProgram.register]
    rw [show (((Message.register.with_sender temp).with_map
          [(MCP_REGISTER_NAME_KEY, .Str n), (MCP_REGISTER_ACTOR_KEY, .Act a)])).build
        nullRoute =
        (⟨.Register, temp,
          .Map [(MCP_REGISTER_NAME_KEY, .Str n), (MCP_REGISTER_ACTOR_KEY, .Act a)]⟩ :
          Message) from rfl]
    rw [process_register_success s mcpAddr temp n a hfree]
    simp [List.find?, hta]
  · intro s2 temp2 a2 hbound
    rw [MasterControlProgram.register]
    rw [show (((Message.register.with_sender temp2).with_map
          [(MCP_REGISTER_NAME_KEY, .Str n), (MCP_REGISTER_ACTOR_KEY, .Act a2)])).build
        nullRoute =
        (⟨.Register, temp2,
          .Map [(MCP_REGISTER_NAME_KEY, .Str n), (MCP_REGISTER_ACTOR_KEY, .Act a2)]⟩ :
          Message) from rfl]
    rw [process_register_dup s2 mcpAddr temp2 n a2 hbound]
    simp [List.find?]

/-- Claim C3 witness: a concrete first registration returns true and binds
the name; the immediately repeated registration returns false with the state
unchanged and no Link output. -/
theorem register_true_once_witness :
    MasterControlProgram.register ⟨[], []⟩ ⟨7⟩ ⟨9⟩ "a" ⟨1⟩ =
      some (⟨[("a", ⟨1⟩)], [(1, "a")]⟩,
            [(⟨1⟩, ⟨.Link, ⟨7⟩, .Void⟩), (⟨9⟩, ⟨.RegisterResponse, ⟨7⟩, .Str "a"⟩)],
            true) ∧
    MasterControlProgram.register ⟨[("a", ⟨1⟩)], [(1, "a")]⟩ ⟨7⟩ ⟨9⟩ "a" ⟨1⟩ =
      some (⟨[("a", ⟨1⟩)], [(1, "a")]⟩, [(⟨9⟩, ⟨.RegisterResponse, ⟨7⟩, .Void⟩)],
            false) :=
  ⟨(register_true_once ⟨[], []⟩ ⟨7⟩ ⟨9⟩ "a" ⟨1⟩ (by decide) rfl).1,
   (register_true_once ⟨[], []⟩ ⟨7⟩ ⟨9⟩ "a" ⟨1⟩ (by decide) rfl).2
     ⟨[("a", ⟨1⟩)], [(1, "a")]⟩ ⟨9⟩ ⟨1⟩ rfl⟩

/-- Claim C7: a WhereIs with a Str datum naming a bound name is answered to
the sender with WhereIsResponse carrying Act of the bound address; a Str
datum naming an unbound name, or any non-string datum, is answered with
WhereIsResponse carrying Void; and the synchronous wrapper where_is returns,
with the state unchanged, exactly the lookup result of the name, so some when
bound and none otherwise. -/
theorem where_is_found_iff (s : MasterControlProgramImpl)
    (mcpAddr temp sender : ActorAddress) (n : String) (d : MessageDatum) :
    (∀ addr, alistGet s.registered n = some addr →
       s.process_message ⟨.WhereIs, sender, .Str n⟩ mcpAddr =
         some (s, [(sender, ⟨.WhereIsResponse, mcpAddr, .Act addr⟩)])) ∧
    (alistGet s.registered n = none →
       s.process_message ⟨.WhereIs, sender, .Str n⟩ mcpAddr =
         some (s, [(sender, ⟨.WhereIsResponse, mcpAddr, .Void⟩)])) ∧
    (d.as_str = none →
       s.process_message ⟨.WhereIs, sender, d⟩ mcpAddr =
         some (s, [(sender, ⟨.WhereIsResponse, mcpAddr, .Void⟩)])) ∧
    (MasterControlProgram.where_is s mcpAddr temp n =
       some (s, alistGet s.registered n)) := by
  refine ⟨?_, ?_, ?_, ?_⟩
  · intro addr h
    rw [MasterControlProgramImpl.process_message]
    simp [MessageDatum.as_str, h, Message.where_is_response,
          MessageBuilder.with_sender, MessageBuilder.with_act,
          MessageBuilder.with_datum, MessageBuilder.build]
  · intro h
    rw [MasterControlProgramImpl.process_message]
    simp [MessageDatum.as_str, h, Message.where_is_response,
          MessageBuilder.with_sender, MessageBuilder.build]
  · intro h
    rw [MasterControlProgramImpl.process_message]
    simp [h, Message.where_is_response, MessageBuilder.with_sender,
          MessageBuilder.build]
  · rw [MasterControlProgram.where_is]
    rw [show ((Message.where_is.with_sender temp).with_str n).build nullRoute =
        (⟨.WhereIs, temp, .Str n⟩ : Message) from rfl]
    rw [MasterControlProgramImpl.process_message]
    cases h : alistGet s.registered n with
    | none =>
      simp [MessageDatum.as_str, h, Message.where_is_response,
            MessageBuilder.with_sender, MessageBuilder.build, List.find?]
    | some addr =>
      simp [MessageDatum.as_str, h, Message.where_is_response,
            MessageBuilder.with_sender, MessageBuilder.with_act,
            MessageBuilder.with_datum, MessageBuilder.build, List.find?]

/-- Claim C7 witness: on a concrete one-entry registry, a WhereIs for the
bound name is answered with its address, a WhereIs for an unbound name and a
WhereIs with an I64 datum are answered with Void, and the wrapper returns
exactly the lookup results. -/
theorem where_is_found_iff_witness :
    MasterControlProgramImpl.process_message ⟨[("a", ⟨1⟩)], [(1, "a")]⟩
        ⟨.WhereIs, ⟨9⟩, .Str "a"⟩ ⟨7⟩ =
      some (⟨[("a", ⟨1⟩)], [(1, "a")]⟩, [(⟨9⟩, ⟨.WhereIsResponse, ⟨7⟩, .Act ⟨1⟩⟩)]) ∧
    MasterControlProgramImpl.process_message ⟨[("a", ⟨1⟩)], [(1, "a")]⟩
        ⟨.WhereIs, ⟨9⟩, .Str "b"⟩ ⟨7⟩ =
      some (⟨[("a", ⟨1⟩)], [(1, "a")]⟩, [(⟨9⟩, ⟨.WhereIsResponse, ⟨7⟩, .Void⟩)]) ∧
    MasterControlProgramImpl.process_message ⟨[("a", ⟨1⟩)], [(1, "a")]⟩
        ⟨.WhereIs, ⟨9⟩, .I64 3⟩ ⟨7⟩ =
      some (⟨[("a", ⟨1⟩)], [(1, "a")]⟩, [(⟨9⟩, ⟨.WhereIsResponse, ⟨7⟩, .Void⟩)]) ∧
    MasterControlProgram.where_is ⟨[("a", ⟨1⟩)], [(1, "a")]⟩ ⟨7⟩ ⟨9⟩ "a" =
      some (⟨[("a", ⟨1⟩)], [(1, "a")]⟩, some ⟨1⟩) :=
  ⟨(where_is_found_iff ⟨[("a", ⟨1⟩)], [(1, "a")]⟩ ⟨7⟩ ⟨9⟩ ⟨9⟩ "a" .Void).1 ⟨1⟩ rfl,
   (where_is_found_iff ⟨[("a", ⟨1⟩)], [(1, "a")]⟩ ⟨7⟩ ⟨9⟩ ⟨9⟩ "b" .Void).2.1 rfl,
   (where_is_found_iff ⟨[("a", ⟨1⟩)], [(1, "a")]⟩ ⟨7⟩ ⟨9⟩ ⟨9⟩ "b" (.I64 3)).2.2.1 rfl,
   (where_is_found_iff ⟨[("a", ⟨1⟩)], [(1, "a")]⟩ ⟨7⟩ ⟨9⟩ ⟨9⟩ "a" .Void).2.2.2⟩

theorem runActions_append_error (msg : Message)
    (pre : List (Message → σ2 → Except String σ2))
    (bad : Message → σ2 → Except String σ2)
    (post : List (Message → σ2 → Except String σ2))
    (st stMid : σ2) (reason : String)
    (hpre : runActions msg st pre = .ok stMid)
    (hbad : bad msg stMid = .error reason) :
    runActions msg st (pre ++ bad :: post) = .error reason := by
  induction pre generalizing st with
  | nil =>
    rw [runActions] at hpre
    injection hpre with h
    subst h
    simp [runActions, hbad]
  | cons act rest ih =>
    rw [runActions] at hpre
    rw [List.cons_append, runActions]
    cases hA : act msg st with
    | ok st3 =>
      rw [hA] at hpre
      exact ih st3 hpre
    | error r =>
      rw [hA] at hpre
      exact Except.noConfusion hpre

/-- Claim C8 (spec-modelled): when, in the declarative matcher/action form,
the first failing action of the matched rule returns Err(reason), the
dispatch cycle stops the actor and emits to every uplink one Exited message
whose datum is Str(reason); the remaining actions of the rule are never run,
since the result is the same for every choice of them; and the pending queue
is discarded, since a stopped result carries no actor and no queue. -/
theorem action_error_short_circuit {σ : Type} (ac : DeclarativeActor σ)
    (self : ActorAddress) (msg : Message) (j : Nat) (rest : List Message)
    (pre post : List (Message → σ → Except String σ))
    (bad : Message → σ → Except String σ) (stMid : σ) (reason : String)
    (hj : j < ac.actions.length)
    (hsel : selectMatched ac.matchers ac.state ac.pending = some (msg, j, rest))
    (hacts : ac.actions.getD j [] = pre ++ bad :: post)
    (hpre : runActions msg ac.state pre = .ok stMid)
    (hbad : bad msg stMid = .error reason) :
    dispatchStep ac self =
      .stopped (ac.uplinks.map (fun u => (u, ⟨.Exited, self, .Str reason⟩))) ∧
    (∀ post2, dispatchStep
        { ac with actions := ac.actions.set j (pre ++ bad :: post2) } self =
      .stopped (ac.uplinks.map (fun u => (u, ⟨.Exited, self, .Str reason⟩)))) := by
  constructor
  · have herr := runActions_append_error msg pre bad post ac.state stMid reason hpre hbad
    rw [dispatchStep]
    split
    · rename_i msg2 j2 rest2 heq
      rw [hsel] at heq
      injection heq with h2
      injection h2 with ha hb
      injection hb with hb1 hb2
      subst ha
      subst hb1
      rw [hacts, herr]
    · rename_i heq
      rw [hsel] at heq
      exact Option.noConfusion heq
  · intro post2
    have herr2 := runActions_append_error msg pre bad post2 ac.state stMid reason hpre hbad
    have hget : (ac.actions.set j (pre ++ bad :: post2)).getD j [] =
        pre ++ bad :: post2 := by
      rw [List.getD_eq_getElem?_getD, List.getElem?_set_self, Option.getD_some]
      exact hj
    rw [dispatchStep]
    dsimp only
    split
    · rename_i msg2 j2 rest2 heq
      rw [hsel] at heq
      injection heq with h2
      injection h2 with ha hb
      injection hb with hb1 hb2
      subst ha
      subst hb1
      rw [hget, herr2]
    · rename_i heq
      rw [hsel] at heq
      exact Option.noConfusion heq

/-- Claim C8 witness: a concrete one-matcher actor whose first action fails
with reason boom stops at once, emitting Exited with Str boom to its one
uplink. -/
theorem action_error_short_circuit_witness :
    dispatchStep
      (⟨0, [fun _ _ => true],
        [[fun _ _ => Except.error "boom", fun _ st => Except.ok (st + 1)]],
        [⟨.Custom "t", ⟨9⟩, .Void⟩], [⟨5⟩]⟩ : DeclarativeActor Nat) ⟨2⟩ =
      .stopped [(⟨5⟩, ⟨.Exited, ⟨2⟩, .Str "boom"⟩)] :=
  (action_error_short_circuit
    ⟨0, [fun _ _ => true],
     [[fun _ _ => Except.error "boom", fun _ st => Except.ok (st + 1)]],
     [⟨.Custom "t", ⟨9⟩, .Void⟩], [⟨5⟩]⟩ ⟨2⟩ ⟨.Custom "t", ⟨9⟩, .Void⟩ 0 []
    [] [fun _ st => Except.ok (st + 1)] (fun _ _ => Except.error "boom") 0 "boom"
    (by decide) rfl rfl rfl rfl).1

end Mecha
